import Mathlib

/-!
Verification development for the WinUAE floppy-disk bridge core
(ArduinoFloppyBridge / GreaseWeazleBridge and their device interfaces).

The definitions below are a shallow embedding of the C++ source:
pure fragments become Lean functions, the façade's mutable fields become an
explicit state record, machine integers become `Nat`/`Int` with explicit
`% 2^w` where wrap-around matters, and wall-clock reads (`GetTickCount()`)
become an explicit `now : Nat` argument.  Locks, events and serial I/O have
no effect on the data values computed here and are dropped (each drop is
noted at the definition it concerns).
-/

namespace FloppyBridge

/-- `#define ARD_MFM_BUFFER_MAX_TRACK_LENGTH 0x3800` (ArduinoFloppyBridge.h). -/
def ARD_MFM_BUFFER_MAX_TRACK_LENGTH : Nat := 0x3800

/-- `#define THEORETICAL_MINIMUM_TRACK_LENGTH 12134` (ArduinoFloppyBridge.cpp,
identical in GreaseWeazleBridge.cpp). -/
def THEORETICAL_MINIMUM_TRACK_LENGTH : Nat := 12134

/-- `#define DRIVE_STEP_GARBAGE_TIME 500` (both bridges). -/
def DRIVE_STEP_GARBAGE_TIME : Nat := 500

/-- `#define WRITE_PRECOMP_START 40` (both bridges). -/
def WRITE_PRECOMP_START : Nat := 40

/-- `#define OVERLAP_WINDOW_SIZE 32` (both interfaces). -/
def OVERLAP_WINDOW_SIZE : Nat := 32

/-- `enum class DiskSurface { dsUpper, dsLower }`. -/
inductive DiskSurface where
  | dsLower
  | dsUpper
deriving DecidableEq, Repr

/-- `inline DiskSurface boolSideToDiskSurface(const bool surface)`. -/
def boolSideToDiskSurface (surface : Bool) : DiskSurface :=
  if surface then DiskSurface.dsUpper else DiskSurface.dsLower

/-- One byte of decoded MFM data plus its eight per-bit speed values
(`struct MFMSample` of the Arduino interface; the bridge reads
`mfmData` bit-wise MSB-first and `speed[bit]`). -/
structure MFMSample where
  mfmData : Nat
  speed : Nat → Nat

/-- `struct MFMCache` (ArduinoFloppyBridge.h): one revolution buffer.
`mfmBuffer` is the fixed array modelled as a total index function. -/
structure MFMCache where
  mfmBuffer : Nat → MFMSample
  ready : Bool
  amountReadInBits : Nat

/-- `struct MFMCaches`: double buffer plus the alignment fingerprint. -/
structure MFMCaches where
  current : MFMCache
  next : MFMCache
  startBitPatterns : List Nat

/-- The all-zero `MFMSample` (result of `memset(..., 0, ...)`). -/
def zeroSample : MFMSample :=
  { mfmData := 0, speed := fun _ => 0 }

/-- An `MFMCache` after `memset(..., 0, ...)`. -/
def zeroCache : MFMCache :=
  { mfmBuffer := fun _ => zeroSample, ready := false, amountReadInBits := 0 }

/-- An `MFMCaches` entry as produced by `resetMFMCache` / the constructor. -/
def zeroCaches : MFMCaches :=
  { current := zeroCache, next := zeroCache, startBitPatterns := [] }

/-- `enum class QueueCommand` (ArduinoFloppyBridge.h). -/
inductive QueueCommand where
  | qcTerminate
  | qcMotorOn
  | qcMotorOff
  | writeMFMData
  | qcGotoToTrack
  | qcSelectDiskSide
deriving DecidableEq, Repr

/-- `struct QueueInfo`: a command plus its option union.  The C union is
modelled by carrying both members; the producer sets the one it uses and
leaves the other at a default. -/
structure QueueInfo where
  command : QueueCommand
  optionI : Nat
  optionB : Bool
deriving DecidableEq, Repr

/-- `struct TrackToWrite` (ArduinoFloppyBridge.h): a pending write.
`mfmBuffer` holds bytes (values < 256); `trackNumber` is an
`unsigned char`, so the `-1` stored by `resetWriteBuffer` reads back
as `255`. -/
structure TrackToWrite where
  mfmBuffer : Nat → Nat
  side : DiskSurface
  trackNumber : Nat
  floppyBufferSizeBits : Nat
  writeFromIndex : Bool

/-- The façade fields of `ArduinoFloppyDiskBridge` that the modelled
operations read or write.  `mfmRead` is the `m_mfmRead[82][2]` array as a
total function; `GetTickCount()` values are plain `Nat` milliseconds. -/
structure BridgeState where
  currentTrack : Nat
  actualCurrentCylinder : Nat
  floppySide : DiskSurface
  actualFloppySide : DiskSurface
  queue : List QueueInfo
  mfmRead : Nat → DiskSurface → MFMCaches
  currentWriteTrack : TrackToWrite
  currentWriteStartMfmPosition : Nat
  pendingTrackWrites : List TrackToWrite
  diskInDrive : Bool
  motorIsReady : Bool
  lastDriveStepTime : Nat
  delayStreaming : Bool
  delayStreamingStart : Nat

/-- Point update of the `m_mfmRead` array. -/
def updateMfmRead (f : Nat → DiskSurface → MFMCaches) (track : Nat)
    (side : DiskSurface) (entry : MFMCaches) : Nat → DiskSurface → MFMCaches :=
  fun t s => if t = track ∧ s = side then entry else f t s

/-- The two clamp statements of `getMFMSpeed`:
`if (speed < 700) speed = 700; if (speed > 3000) speed = 3000;`. -/
def clampSpeed (speed : Nat) : Nat :=
  let speed := if speed < 700 then 700 else speed
  let speed := if speed > 3000 then 3000 else speed
  speed

/-- `ArduinoFloppyDiskBridge::getMFMSpeed` (ArduinoFloppyBridge.cpp lines
404-434; GreaseWeazleBridge.cpp is textually identical).  `now` stands for
`GetTickCount()`.  The function never blocks; the source's single pass over
the cached buffers is reproduced exactly. -/
def getMFMSpeed (s : BridgeState) (now : Nat) (mfmPositionBits : Nat) : Nat :=
  if s.diskInDrive = false ∨ s.motorIsReady = false then 1000
  else
    let mfmPositionByte := mfmPositionBits >>> 3
    let mfmPositionBit := 7 - (mfmPositionBits &&& 7)
    let entry := s.mfmRead s.currentTrack s.floppySide
    if entry.current.ready then
      clampSpeed (10 * ((entry.current.mfmBuffer mfmPositionByte).speed mfmPositionBit))
    else if now - s.lastDriveStepTime < DRIVE_STEP_GARBAGE_TIME then 1000
    else if mfmPositionBits < entry.next.amountReadInBits then
      clampSpeed (10 * ((entry.next.mfmBuffer mfmPositionByte).speed mfmPositionBit))
    else 1000

/-- `ArduinoFloppyDiskBridge::getMFMBit` (ArduinoFloppyBridge.cpp lines
437-477).  The source polls up to 600 ms, re-testing the same two buffers
every 5 ms; over a fixed state every iteration evaluates identically, so the
poll loop collapses to its first iteration (a timed-out loop returns 0). -/
def getMFMBit (s : BridgeState) (now : Nat) (mfmPositionBits : Nat) : Bool :=
  if s.diskInDrive = false ∨ s.motorIsReady = false then false
  else
    let mfmPositionByte := mfmPositionBits >>> 3
    let mfmPositionBit := 7 - (mfmPositionBits &&& 7)
    let entry := s.mfmRead s.currentTrack s.floppySide
    if entry.current.ready then
      ((entry.current.mfmBuffer mfmPositionByte).mfmData &&& (1 <<< mfmPositionBit)) != 0
    else if now - s.lastDriveStepTime < DRIVE_STEP_GARBAGE_TIME then false
    else if mfmPositionBits < entry.next.amountReadInBits then
      ((entry.next.mfmBuffer mfmPositionByte).mfmData &&& (1 <<< mfmPositionBit)) != 0
    else false

/-- `ArduinoFloppyDiskBridge::maxMFMBitPosition` (lines 375-382). -/
def maxMFMBitPosition (s : BridgeState) : Nat :=
  let entry := s.mfmRead s.currentTrack s.floppySide
  if entry.current.ready then entry.current.amountReadInBits
  else max (THEORETICAL_MINIMUM_TRACK_LENGTH * 8) entry.next.amountReadInBits

theorem clampSpeed_range (x : Nat) : 700 ≤ clampSpeed x ∧ clampSpeed x ≤ 3000 := by
  simp only [clampSpeed]
  split_ifs <;> omega

/-- A fully idle façade state used to instantiate universally quantified
theorems at concrete inputs. -/
def idleState : BridgeState :=
  { currentTrack := 0
    actualCurrentCylinder := 0
    floppySide := DiskSurface.dsLower
    actualFloppySide := DiskSurface.dsLower
    queue := []
    mfmRead := fun _ _ => zeroCaches
    currentWriteTrack :=
      { mfmBuffer := fun _ => 0, side := DiskSurface.dsLower, trackNumber := 255,
        floppyBufferSizeBits := 0, writeFromIndex := false }
    currentWriteStartMfmPosition := 0
    pendingTrackWrites := []
    diskInDrive := false
    motorIsReady := false
    lastDriveStepTime := 0
    delayStreaming := false
    delayStreamingStart := 0 }

/-- C2: for every façade state, clock value and bit position, the value
returned by `getMFMSpeed` lies in `[700, 3000]`, and whenever the motor is
not ready or no disk is present it is exactly `1000`. -/
theorem C2_getMFMSpeed_range_and_neutral (s : BridgeState) (now pos : Nat) :
    (700 ≤ getMFMSpeed s now pos ∧ getMFMSpeed s now pos ≤ 3000) ∧
      (s.diskInDrive = false ∨ s.motorIsReady = false → getMFMSpeed s now pos = 1000) := by
  simp only [getMFMSpeed]
  refine ⟨?_, ?_⟩
  · split_ifs with h1 h2 h3 h4
    · omega
    · exact clampSpeed_range _
    · omega
    · exact clampSpeed_range _
    · omega
  · intro h
    simp only [if_pos h]

/-- C2 witness: the theorem instantiated at the idle state (no disk, motor
off), where the speed is the neutral `1000`. -/
theorem C2_witness :
    getMFMSpeed idleState 0 0 = 1000 :=
  (C2_getMFMSpeed_range_and_neutral idleState 0 0).2 (Or.inl rfl)

/-- A state inside the post-step garbage window whose active cache entry is
ready, with a buffer whose first bit is `1` and whose speed bytes clamp to
`700`: it witnesses that `getMFMBit`/`getMFMSpeed` serve the ready buffer
without consulting the garbage window. -/
def garbageReadyState : BridgeState :=
  { idleState with
    diskInDrive := true
    motorIsReady := true
    lastDriveStepTime := 0
    mfmRead := fun _ _ =>
      { current :=
          { mfmBuffer := fun _ => { mfmData := 0x80, speed := fun _ => 50 },
            ready := true, amountReadInBits := 100000 }
        next := zeroCache
        startBitPatterns := [] } }

/-- C1 counterexample: at time `0` (zero milliseconds after the last head
step, well inside the 500 ms garbage window) with the current buffer ready,
`getMFMBit` returns `1` and `getMFMSpeed` returns `700`, not `0`/`1000` as
the claim states: the source consults `current.ready` before the garbage
window, so the window only applies while no current buffer is ready. -/
theorem C1_counterexample :
    (0 - garbageReadyState.lastDriveStepTime < DRIVE_STEP_GARBAGE_TIME) ∧
      (garbageReadyState.mfmRead garbageReadyState.currentTrack
          garbageReadyState.floppySide).current.ready = true ∧
      getMFMBit garbageReadyState 0 0 = true ∧
      getMFMSpeed garbageReadyState 0 0 = 700 := by
  refine ⟨by decide, rfl, rfl, rfl⟩

/-- C1 (amended): within the garbage window (< 500 ms since the last head
step or side change), *provided the current buffer of the active cache entry
is not ready*, `getMFMBit` returns 0 and `getMFMSpeed` returns 1000 for
every position; when the current buffer is ready both functions serve it
regardless of the window. -/
theorem C1_garbage_window (s : BridgeState) (now pos : Nat)
    (hwin : now - s.lastDriveStepTime < DRIVE_STEP_GARBAGE_TIME)
    (hready : (s.mfmRead s.currentTrack s.floppySide).current.ready = false) :
    getMFMBit s now pos = false ∧ getMFMSpeed s now pos = 1000 := by
  simp only [getMFMBit, getMFMSpeed]
  constructor
  · split_ifs with h1 h2 <;> simp_all
  · split_ifs with h1 h2 <;> simp_all

/-- C1 witness: the amended theorem applied to the idle state with disk and
motor flags set, at time 0 and position 0. -/
theorem C1_witness :
    getMFMBit { idleState with diskInDrive := true, motorIsReady := true } 0 0 = false ∧
      getMFMSpeed { idleState with diskInDrive := true, motorIsReady := true } 0 0 = 1000 :=
  C1_garbage_window { idleState with diskInDrive := true, motorIsReady := true } 0 0
    (by decide) rfl

/-- `ArduinoFloppyDiskBridge::internalSwitchCylinder` restricted to the one
`(cylinder, side)` entry it touches (lines 391-400): promote `next` to
`current` when `next.ready`.  The `m_switchBufferLock` only orders the
accesses and has no data effect. -/
def entryInternalSwitchCylinder (e : MFMCaches) : MFMCaches :=
  if e.next.ready then
    { e with current := e.next,
             next := { e.next with amountReadInBits := 0, ready := false } }
  else e

/-- `ArduinoFloppyDiskBridge::saveNextBuffer` restricted to one entry
(lines 253-274): flag `next` ready when it holds any bits at all, then
promote it if no `current` buffer is live.  The `SetEvent` call signals the
reader and has no data effect. -/
def entrySaveNextBuffer (e : MFMCaches) : MFMCaches :=
  let e1 :=
    if e.next.amountReadInBits ≠ 0 then { e with next := { e.next with ready := true } }
    else e
  if e1.next.ready = false then e1
  else if e1.current.ready = false then entryInternalSwitchCylinder e1
  else e1

/-- Start of `handleBackgroundDiskRead` (lines 292-294): `next` is cleared
before streaming into it. -/
def entryBeginRead (e : MFMCaches) : MFMCaches :=
  { e with next := { e.next with amountReadInBits := 0, ready := false } }

/-- The read-stream callback's normal chunk path (lines 323-352): the chunk
is copied into `next.mfmBuffer` (the post-copy buffer contents are the free
parameter `newBuffer`), `amountReadInBits` grows by `dataLengthInBits`, and
on `isEndOfRevolution` the buffer is saved via `saveNextBuffer`. -/
def entryReadChunk (e : MFMCaches) (dataLengthInBits : Nat)
    (newBuffer : Nat → MFMSample) (isEndOfRevolution : Bool) : MFMCaches :=
  let e := { e with next := { mfmBuffer := newBuffer, ready := e.next.ready,
                              amountReadInBits := e.next.amountReadInBits + dataLengthInBits } }
  if isEndOfRevolution then entrySaveNextBuffer e else e

/-- The callback's buffer-overflow path (lines 306-321): the byte count is
pinned at the buffer capacity and the buffer saved. -/
def entryOverflowChunk (e : MFMCaches) (newBuffer : Nat → MFMSample) : MFMCaches :=
  entrySaveNextBuffer
    { e with next := { mfmBuffer := newBuffer, ready := e.next.ready,
                       amountReadInBits := ARD_MFM_BUFFER_MAX_TRACK_LENGTH * 8 } }

/-- The callback's queue-abort path (lines 300-303): discard the partial
revolution. -/
def entryAbortRead (e : MFMCaches) : MFMCaches :=
  { e with next := { e.next with amountReadInBits := 0 } }

/-- End of `handleBackgroundDiskRead` (line 360): a partial `next` that never
became ready is discarded. -/
def entryFinishRead (e : MFMCaches) : MFMCaches :=
  if e.next.ready = false then { e with next := { e.next with amountReadInBits := 0 } }
  else e

/-- The cache invalidation inside `commitWriteBuffer` (lines 822-827). -/
def entryWriteInvalidate (e : MFMCaches) : MFMCaches :=
  { e with current := { e.current with ready := false },
           next := { e.next with amountReadInBits := 0, ready := false } }

/-- The cache invalidation after a physical write in
`processCommand`/`writeMFMData` (line 547). -/
def entryProcessWriteInvalidate (e : MFMCaches) : MFMCaches :=
  { e with current := { e.current with ready := false } }

/-- All states one cache entry can be driven to by the operations of the
bridge, starting from the zeroed entry (`resetMFMCache` re-enters the
initial state).  The three callback constructors carry the guard
`e.next.ready = false`: `handleBackgroundDiskRead` returns before streaming
when `next.ready` is already set (lines 282-286), and within a stream the
callback stops (returns `false`) as soon as `next.ready` becomes true
(lines 345-348), so every executed callback starts with `next.ready`
false. -/
inductive EntryReachable : MFMCaches → Prop where
  | init : EntryReachable zeroCaches
  | beginRead {e} : EntryReachable e → EntryReachable (entryBeginRead e)
  | readChunk {e} (dataLengthInBits : Nat) (newBuffer : Nat → MFMSample)
      (isEndOfRevolution : Bool) (hs : e.next.ready = false) :
      EntryReachable e →
      EntryReachable (entryReadChunk e dataLengthInBits newBuffer isEndOfRevolution)
  | overflow {e} (newBuffer : Nat → MFMSample) (hs : e.next.ready = false) :
      EntryReachable e → EntryReachable (entryOverflowChunk e newBuffer)
  | abortRead {e} (hs : e.next.ready = false) :
      EntryReachable e → EntryReachable (entryAbortRead e)
  | finishRead {e} : EntryReachable e → EntryReachable (entryFinishRead e)
  | switchBuffer {e} : EntryReachable e → EntryReachable (entryInternalSwitchCylinder e)
  | writeInvalidate {e} : EntryReachable e → EntryReachable (entryWriteInvalidate e)
  | processWrite {e} : EntryReachable e → EntryReachable (entryProcessWriteInvalidate e)
  | reset {e} : EntryReachable e → EntryReachable zeroCaches

/-- The invariant the code actually maintains: a ready buffer holds at least
one bit (`saveNextBuffer` refuses to flag an empty `next`). -/
def entryInv (e : MFMCaches) : Prop :=
  (e.current.ready = true → 0 < e.current.amountReadInBits) ∧
    (e.next.ready = true → 0 < e.next.amountReadInBits)

theorem entryInv_internalSwitch {e : MFMCaches} (h : entryInv e) :
    entryInv (entryInternalSwitchCylinder e) := by
  unfold entryInternalSwitchCylinder
  split_ifs with hn
  · exact ⟨fun _ => h.2 hn, by simp⟩
  · exact h

theorem entryInv_saveNext {e : MFMCaches} (h : entryInv e) :
    entryInv (entrySaveNextBuffer e) := by
  unfold entrySaveNextBuffer
  by_cases hz : e.next.amountReadInBits ≠ 0
  · have h1 : entryInv { e with next := { e.next with ready := true } } :=
      ⟨h.1, fun _ => Nat.pos_of_ne_zero hz⟩
    simp only [if_pos hz]
    split_ifs <;>
      first
        | exact h1
        | exact entryInv_internalSwitch h1
  · simp only [if_neg hz]
    split_ifs <;>
      first
        | exact h
        | exact entryInv_internalSwitch h

theorem entryInv_of_reachable {e : MFMCaches} (h : EntryReachable e) : entryInv e := by
  induction h with
  | init => exact ⟨by simp [zeroCaches, zeroCache], by simp [zeroCaches, zeroCache]⟩
  | beginRead _ ih => exact ⟨ih.1, by simp [entryBeginRead]⟩
  | readChunk len buf isEnd hs _ ih =>
      simp only [entryReadChunk]
      split_ifs
      · exact entryInv_saveNext ⟨ih.1, fun hr => by simp_all⟩
      · exact ⟨ih.1, fun hr => by simp_all⟩
  | overflow buf hs _ ih =>
      exact entryInv_saveNext ⟨ih.1, fun hr => by simp_all⟩
  | abortRead hs _ ih =>
      exact ⟨ih.1, fun hr => by simp_all [entryAbortRead]⟩
  | finishRead _ ih =>
      refine ⟨fun hr => ?_, fun hr => ?_⟩
      · unfold entryFinishRead at hr ⊢
        split_ifs at hr ⊢ with hn
        · exact ih.1 hr
        · exact ih.1 hr
      · unfold entryFinishRead at hr ⊢
        split_ifs at hr ⊢ with hn
        · simp_all
        · exact ih.2 hr
  | switchBuffer _ ih => exact entryInv_internalSwitch ih
  | writeInvalidate _ ih =>
      exact ⟨by simp [entryWriteInvalidate], by simp [entryWriteInvalidate]⟩
  | processWrite _ ih => exact ⟨by simp [entryProcessWriteInvalidate], ih.2⟩
  | reset _ _ => exact ⟨by simp [zeroCaches, zeroCache], by simp [zeroCaches, zeroCache]⟩

/-- The reachable entry that refutes C3: one 128-bit chunk carrying the
end-of-revolution flag promotes a 128-bit buffer to `current`. -/
def underfilledEntry : MFMCaches :=
  entryReadChunk (entryBeginRead zeroCaches) 128 (fun _ => zeroSample) true

/-- C3 counterexample: a reachable cache-entry state whose `current` buffer
is ready with only 128 bits, far below `THEORETICAL_MIN_BITS = 97072`:
`saveNextBuffer` flags `next` ready for *any* non-zero bit count, so the
claimed lower bound is not an invariant of the code. -/
theorem C3_counterexample :
    EntryReachable underfilledEntry ∧
      underfilledEntry.current.ready = true ∧
      underfilledEntry.current.amountReadInBits < THEORETICAL_MINIMUM_TRACK_LENGTH * 8 := by
  refine ⟨?_, by decide, by decide⟩
  exact EntryReachable.readChunk 128 (fun _ => zeroSample) true rfl
    (EntryReachable.beginRead EntryReachable.init)

/-- C3 (amended): in every reachable state of a cache entry, a ready
`current` buffer holds a *positive* number of bits — the promotion in
`saveNextBuffer`/`internalSwitchCylinder` only guarantees
`amountReadInBits ≠ 0`, not the claimed `≥ 97072`. -/
theorem C3_ready_implies_nonempty (e : MFMCaches) (h : EntryReachable e)
    (hr : e.current.ready = true) : 0 < e.current.amountReadInBits :=
  (entryInv_of_reachable h).1 hr

/-- C3 witness: the amended theorem applied to the concrete reachable entry
with a 128-bit ready buffer. -/
theorem C3_witness : 0 < underfilledEntry.current.amountReadInBits :=
  C3_ready_implies_nonempty underfilledEntry
    (EntryReachable.readChunk 128 (fun _ => zeroSample) true rfl
      (EntryReachable.beginRead EntryReachable.init))
    (by decide)

/-- `ArduinoFloppyDiskBridge::resetWriteBuffer` (lines 769-774).  The `-1`
stored into the `unsigned char` `trackNumber` reads back as `255`. -/
def resetWriteBuffer (s : BridgeState) : BridgeState :=
  { s with
    currentWriteTrack :=
      { s.currentWriteTrack with
        writeFromIndex := false,
        floppyBufferSizeBits := 0,
        trackNumber := 255 },
    currentWriteStartMfmPosition := 0 }

/-- `pushOntoQueue` (lines 146-154): append under the queue lock.  The
semaphore release and `abortReadStreaming` only signal the worker. -/
def pushOntoQueue (s : BridgeState) (info : QueueInfo) : BridgeState :=
  { s with queue := s.queue ++ [info] }

/-- `queueCommand(command, int option)` (lines 128-134); the C union leaves
the bool member unspecified, fixed here to `false`. -/
def queueCommandOptionI (s : BridgeState) (command : QueueCommand) (optionI : Nat) :
    BridgeState :=
  pushOntoQueue s { command := command, optionI := optionI, optionB := false }

/-- `queueCommand(command, bool option)` (lines 137-143); the int member is
fixed to `0`. -/
def queueCommandOptionB (s : BridgeState) (command : QueueCommand) (optionB : Bool) :
    BridgeState :=
  pushOntoQueue s { command := command, optionI := 0, optionB := optionB }

/-- `ArduinoFloppyDiskBridge::switchDiskSide` (lines 92-102).  The
`ResetEvent` call only arms the reader's wait and has no data effect. -/
def switchDiskSide (s : BridgeState) (now : Nat) (side : Bool) : BridgeState :=
  if boolSideToDiskSurface side ≠ s.floppySide then
    let s := resetWriteBuffer s
    let s := { s with floppySide := boolSideToDiskSurface side, lastDriveStepTime := now }
    queueCommandOptionB s QueueCommand.qcSelectDiskSide side
  else s

/-- The queue update of `gotoCylinder` (lines 732-750): if the back of the
queue is already a `qcGotoToTrack`, its cylinder is overwritten in place,
otherwise a fresh command is appended. -/
def coalesceGotoTrack (queue : List QueueInfo) (trackNumber : Nat) : List QueueInfo :=
  match queue.getLast? with
  | some info =>
      if info.command = QueueCommand.qcGotoToTrack then
        queue.dropLast ++ [{ info with optionI := trackNumber }]
      else
        queue ++ [{ command := QueueCommand.qcGotoToTrack, optionI := trackNumber,
                    optionB := false }]
  | none =>
      queue ++ [{ command := QueueCommand.qcGotoToTrack, optionI := trackNumber,
                  optionB := false }]

/-- `ArduinoFloppyDiskBridge::gotoCylinder` (lines 721-751). -/
def gotoCylinder (s : BridgeState) (now : Nat) (trackNumber : Nat) (side : Bool) :
    BridgeState :=
  if s.currentTrack = trackNumber then s
  else
    let s := resetWriteBuffer s
    let s := { s with currentTrack := trackNumber, lastDriveStepTime := now }
    let s := switchDiskSide s now side
    { s with queue := coalesceGotoTrack s.queue trackNumber }

/-- The capacity-guarded append of `writeShortToBuffer` (lines 788-798):
when there is room for another 16 bits, the first word records the target
and start position, then the word's two bytes are stored MSB first and the
bit count grows by 16; otherwise nothing happens.  `mfmData` is the 16-bit
word (`unsigned short`, hence the `% 65536`); `track` is stored into the
`unsigned char` `trackNumber`, hence the `% 256`. -/
def appendWriteShort (s : BridgeState) (side : Bool) (track : Nat)
    (mfmData : Nat) (mfmPosition : Nat) : BridgeState :=
  if s.currentWriteTrack.floppyBufferSizeBits < ARD_MFM_BUFFER_MAX_TRACK_LENGTH * 8 - 16 then
    let s :=
      if s.currentWriteTrack.floppyBufferSizeBits = 0 then
        { s with
          currentWriteTrack :=
            { s.currentWriteTrack with
              trackNumber := track % 256,
              side := boolSideToDiskSurface side },
          currentWriteStartMfmPosition := mfmPosition }
      else s
    let bits := s.currentWriteTrack.floppyBufferSizeBits
    let buf := Function.update s.currentWriteTrack.mfmBuffer (bits >>> 3)
      ((mfmData % 65536) >>> 8)
    let buf := Function.update buf ((bits >>> 3) + 1) (mfmData &&& 0xFF)
    { s with
      currentWriteTrack :=
        { s.currentWriteTrack with mfmBuffer := buf, floppyBufferSizeBits := bits + 16 } }
  else s

/-- `ArduinoFloppyDiskBridge::writeShortToBuffer` (lines 778-799;
GreaseWeazleBridge.cpp lines 743-762 is identical up to the buffer-size
macro): the side/track bookkeeping followed by the guarded append. -/
def writeShortToBuffer (s : BridgeState) (now : Nat) (side : Bool) (track : Nat)
    (mfmData : Nat) (mfmPosition : Nat) : BridgeState :=
  let s := switchDiskSide s now side
  let s := gotoCylinder s now track side
  let s := { s with delayStreaming := true, delayStreamingStart := now }
  appendWriteShort s side track mfmData mfmPosition

/-- `ArduinoFloppyDiskBridge::commitWriteBuffer` (lines 803-834;
GreaseWeazleBridge.cpp lines 766-796 is identical up to the macro names).
`abortReadStreaming` and the two critical sections have no data effect. -/
def commitWriteBuffer (s : BridgeState) (now : Nat) (side : Bool) (track : Nat) :
    Nat × BridgeState :=
  let s := switchDiskSide s now side
  let s := gotoCylinder s now track side
  let s := { s with delayStreaming := true, delayStreamingStart := now }
  let s :=
    if s.currentWriteTrack.floppyBufferSizeBits ≠ 0 ∧
        s.currentWriteTrack.trackNumber = track ∧
        s.currentWriteTrack.side = boolSideToDiskSurface side then
      let writeFromIndex : Bool :=
        decide ((s.currentWriteStartMfmPosition : Int) ≤ 10) ||
          decide ((s.currentWriteStartMfmPosition : Int) ≥ (maxMFMBitPosition s : Int) - 10)
      let t := { s.currentWriteTrack with writeFromIndex := writeFromIndex }
      let s := { s with currentWriteTrack := t,
                        pendingTrackWrites := s.pendingTrackWrites ++ [t] }
      let s := queueCommandOptionI s QueueCommand.writeMFMData 0
      { s with
        mfmRead := updateMfmRead s.mfmRead track s.floppySide
          (entryWriteInvalidate (s.mfmRead track s.floppySide)) }
    else s
  let s := resetWriteBuffer s
  (maxMFMBitPosition s, s)

/-- C6: when `gotoCylinder` enqueues a seek and the back of the queue is
already a `qcGotoToTrack`, that element's cylinder is overwritten in place
and the queue length is unchanged; consequently three successive seeks to
cylinders 5, 9 and 12 from the initial state leave exactly one
`qcGotoToTrack` command carrying cylinder 12. -/
theorem C6_seek_coalescing :
    (∀ (s : BridgeState) (now trackNumber : Nat) (side : Bool) (info : QueueInfo),
        s.currentTrack ≠ trackNumber →
        boolSideToDiskSurface side = s.floppySide →
        s.queue.getLast? = some info →
        info.command = QueueCommand.qcGotoToTrack →
        (gotoCylinder s now trackNumber side).queue =
            s.queue.dropLast ++ [{ info with optionI := trackNumber }] ∧
          (gotoCylinder s now trackNumber side).queue.length = s.queue.length) ∧
      (∀ now1 now2 now3 : Nat,
        (gotoCylinder (gotoCylinder (gotoCylinder idleState now1 5 false) now2 9 false)
            now3 12 false).queue =
          [{ command := QueueCommand.qcGotoToTrack, optionI := 12, optionB := false }]) := by
  constructor
  · intro s now t side info hne hside hlast hcmd
    have hnil : s.queue ≠ [] := by
      intro h
      rw [h] at hlast
      simp at hlast
    have hq : (gotoCylinder s now t side).queue =
        s.queue.dropLast ++ [{ info with optionI := t }] := by
      simp only [gotoCylinder, if_neg hne, switchDiskSide, resetWriteBuffer,
        queueCommandOptionB, pushOntoQueue, coalesceGotoTrack]
      rw [if_neg (fun h => h hside)]
      simp only [hlast, hcmd, if_pos]
    refine ⟨hq, ?_⟩
    rw [hq]
    have := List.length_pos.mpr hnil
    simp [List.length_dropLast]
    omega
  · intro now1 now2 now3
    rfl

/-- C6 witness: the in-place overwrite applied to a queue holding a single
seek to cylinder 5, coalesced with a new seek to cylinder 9. -/
theorem C6_witness :
    (gotoCylinder
        { idleState with
          queue := [{ command := QueueCommand.qcGotoToTrack, optionI := 5,
                      optionB := false }] }
        0 9 false).queue =
      [{ command := QueueCommand.qcGotoToTrack, optionI := 9, optionB := false }] := by
  have h := (C6_seek_coalescing).1
    { idleState with
      queue := [{ command := QueueCommand.qcGotoToTrack, optionI := 5, optionB := false }] }
    0 9 false
    { command := QueueCommand.qcGotoToTrack, optionI := 5, optionB := false }
    (by decide) rfl rfl rfl
  simpa using h.1

/-- The `writeFromIndex` derivation exactly as claim C7 words it: true iff
the write *began* within 10 bits of position 0 or *ended* within 10 bits of
the track's maximum bit position, the end being `startPos + bits`. -/
def claimedWriteFromIndex (startPos bits maxPos : Nat) : Bool :=
  decide ((startPos : Int) ≤ 10) ||
    decide ((startPos : Int) + (bits : Int) ≥ (maxPos : Int) - 10)

/-- A façade state holding a pending 97056-bit write that starts at bit 20 of
a track whose maximum bit position is the 97072-bit floor: the write *ends*
next to the maximum position but does not *begin* near it. -/
def longWriteState : BridgeState :=
  { idleState with
    currentTrack := 3,
    currentWriteTrack :=
      { mfmBuffer := fun _ => 0, side := DiskSurface.dsLower, trackNumber := 3,
        floppyBufferSizeBits := 97056, writeFromIndex := false },
    currentWriteStartMfmPosition := 20 }

/-- C7 counterexample: committing the write of `longWriteState` pushes a
pending write with `writeFromIndex = false`, although the write ended within
10 bits of the maximum bit position (20 + 97056 ≥ 97072 − 10), so the claim's
derivation would give `true`: the source tests the *start* position against
`maxMFMBitPosition() - 10`, not the end position. -/
theorem C7_counterexample :
    ((commitWriteBuffer longWriteState 0 false 3).2.pendingTrackWrites.getLast?).map
        TrackToWrite.writeFromIndex = some false ∧
      claimedWriteFromIndex longWriteState.currentWriteStartMfmPosition
        longWriteState.currentWriteTrack.floppyBufferSizeBits
        (maxMFMBitPosition longWriteState) = true := by
  exact ⟨rfl, by decide⟩

/-- C7 (amended): when `commitWriteBuffer` pushes a pending write (the buffer
is non-empty and its target matches the requested side and track), the
pushed entry's `writeFromIndex` is true iff the write *began* within 10 bits
of position 0 or *began* within 10 bits of the track's maximum bit
position. -/
theorem C7_writeFromIndex_start_based (s : BridgeState) (now : Nat) (side : Bool)
    (track : Nat)
    (htrack : s.currentTrack = track)
    (hside : boolSideToDiskSurface side = s.floppySide)
    (hbits : s.currentWriteTrack.floppyBufferSizeBits ≠ 0)
    (hwtrack : s.currentWriteTrack.trackNumber = track)
    (hwside : s.currentWriteTrack.side = boolSideToDiskSurface side) :
    (commitWriteBuffer s now side track).2.pendingTrackWrites =
      s.pendingTrackWrites ++
        [{ s.currentWriteTrack with
           writeFromIndex := decide (s.currentWriteStartMfmPosition ≤ 10 ∨
             maxMFMBitPosition s ≤ s.currentWriteStartMfmPosition + 10) }] := by
  have hswitch : switchDiskSide s now side = s := by
    unfold switchDiskSide
    rw [if_neg (fun h => h hside)]
  have hdecide :
      (decide ((s.currentWriteStartMfmPosition : Int) ≤ 10) ||
          decide ((s.currentWriteStartMfmPosition : Int) ≥ (maxMFMBitPosition s : Int) - 10)) =
        decide (s.currentWriteStartMfmPosition ≤ 10 ∨
          maxMFMBitPosition s ≤ s.currentWriteStartMfmPosition + 10) := by
    rw [← Bool.decide_or, decide_eq_decide]
    omega
  simp only [commitWriteBuffer, hswitch]
  have hg : gotoCylinder s now track side = s := by
    unfold gotoCylinder
    rw [if_pos htrack]
  rw [hg]
  have hmax : maxMFMBitPosition { s with delayStreaming := true, delayStreamingStart := now } =
      maxMFMBitPosition s := rfl
  simp only [hmax]
  rw [if_pos ⟨hbits, hwtrack, hwside⟩]
  simp only [resetWriteBuffer, queueCommandOptionI, pushOntoQueue, updateMfmRead, hdecide]

/-- C7 witness: the amended theorem applied to the concrete long write,
whose pushed entry carries `writeFromIndex = false`. -/
theorem C7_witness :
    (commitWriteBuffer longWriteState 0 false 3).2.pendingTrackWrites =
      longWriteState.pendingTrackWrites ++
        [{ longWriteState.currentWriteTrack with
           writeFromIndex := decide (longWriteState.currentWriteStartMfmPosition ≤ 10 ∨
             maxMFMBitPosition longWriteState ≤
               longWriteState.currentWriteStartMfmPosition + 10) }] :=
  C7_writeFromIndex_start_based longWriteState 0 false 3 rfl rfl (by decide) rfl rfl

/-- `ArduinoFloppyDiskBridge::isDiskInDrive` (lines 711-713). -/
def isDiskInDrive (s : BridgeState) : Bool :=
  s.diskInDrive

/-- `ArduinoFloppyDiskBridge::hasDiskChanged` (lines 716-718).  Its header
contract says "This should reset its status after being called", but the
body is `return !m_diskInDrive`: it reads one flag and mutates nothing.  The
returned state makes the absence of any reset explicit. -/
def hasDiskChanged (s : BridgeState) : Bool × BridgeState :=
  (!s.diskInDrive, s)

/-- C9: once the worker has cleared the disk-present flag, `isDiskInDrive`
is false, but `hasDiskChanged` returns true on *every* subsequent call and
leaves the state untouched — there is no reset-after-read, contradicting
both the claim's "exactly once" and the function's own documented
contract. -/
theorem C9_hasDiskChanged_never_resets (s : BridgeState)
    (habsent : s.diskInDrive = false) :
    isDiskInDrive s = false ∧
      (hasDiskChanged s).1 = true ∧
      (hasDiskChanged s).2 = s ∧
      (hasDiskChanged (hasDiskChanged s).2).1 = true := by
  simp [isDiskInDrive, hasDiskChanged, habsent]

/-- C9 witness: the theorem at the idle state, whose drive is empty. -/
theorem C9_witness :
    isDiskInDrive idleState = false ∧
      (hasDiskChanged idleState).1 = true ∧
      (hasDiskChanged idleState).2 = idleState ∧
      (hasDiskChanged (hasDiskChanged idleState).2).1 = true :=
  C9_hasDiskChanged_never_resets idleState rfl

theorem switchDiskSide_same (s : BridgeState) (now : Nat) (side : Bool)
    (h : boolSideToDiskSurface side = s.floppySide) :
    switchDiskSide s now side = s := by
  unfold switchDiskSide
  rw [if_neg (fun hne => hne h)]

theorem gotoCylinder_same (s : BridgeState) (now track : Nat) (side : Bool)
    (h : s.currentTrack = track) :
    gotoCylinder s now track side = s := by
  unfold gotoCylinder
  rw [if_pos h]

theorem switchDiskSide_writeTrack (s : BridgeState) (now : Nat) (side : Bool) :
    ((switchDiskSide s now side).currentWriteTrack.floppyBufferSizeBits =
        s.currentWriteTrack.floppyBufferSizeBits ∨
      (switchDiskSide s now side).currentWriteTrack.floppyBufferSizeBits = 0) ∧
      (switchDiskSide s now side).currentWriteTrack.mfmBuffer =
        s.currentWriteTrack.mfmBuffer := by
  unfold switchDiskSide queueCommandOptionB pushOntoQueue resetWriteBuffer
  split_ifs <;> simp

theorem gotoCylinder_writeTrack (s : BridgeState) (now track : Nat) (side : Bool) :
    ((gotoCylinder s now track side).currentWriteTrack.floppyBufferSizeBits =
        s.currentWriteTrack.floppyBufferSizeBits ∨
      (gotoCylinder s now track side).currentWriteTrack.floppyBufferSizeBits = 0) ∧
      (gotoCylinder s now track side).currentWriteTrack.mfmBuffer =
        s.currentWriteTrack.mfmBuffer := by
  unfold gotoCylinder
  split_ifs with h
  · simp
  · have hX := switchDiskSide_writeTrack
      { resetWriteBuffer s with currentTrack := track, lastDriveStepTime := now } now side
    refine ⟨Or.inr ?_, ?_⟩
    · rcases hX.1 with hb | hb <;> exact hb
    · exact hX.2

/-- The invariant claim C10 is about: the pending write buffer's bit count
is 16-aligned and never exceeds the capacity minus one word. -/
def writeBufferInv (s : BridgeState) : Prop :=
  s.currentWriteTrack.floppyBufferSizeBits % 16 = 0 ∧
    s.currentWriteTrack.floppyBufferSizeBits ≤ ARD_MFM_BUFFER_MAX_TRACK_LENGTH * 8 - 16

theorem appendWriteShort_inv (s : BridgeState) (side : Bool) (track w pos : Nat)
    (h : writeBufferInv s) : writeBufferInv (appendWriteShort s side track w pos) := by
  obtain ⟨h1, h2⟩ := h
  unfold appendWriteShort
  unfold writeBufferInv
  unfold ARD_MFM_BUFFER_MAX_TRACK_LENGTH at *
  split_ifs with hlt hz <;> simp_all
  omega

theorem appendWriteShort_discard (s : BridgeState) (side : Bool) (track w pos : Nat)
    (h : ¬ s.currentWriteTrack.floppyBufferSizeBits <
        ARD_MFM_BUFFER_MAX_TRACK_LENGTH * 8 - 16) :
    appendWriteShort s side track w pos = s := by
  unfold appendWriteShort
  rw [if_neg h]

theorem appendWriteShort_buffer_high (s : BridgeState) (side : Bool)
    (track w pos j : Nat) (hj : ARD_MFM_BUFFER_MAX_TRACK_LENGTH ≤ j) :
    (appendWriteShort s side track w pos).currentWriteTrack.mfmBuffer j =
      s.currentWriteTrack.mfmBuffer j := by
  unfold appendWriteShort
  unfold ARD_MFM_BUFFER_MAX_TRACK_LENGTH at *
  split_ifs with hlt hz <;>
    simp_all [Function.update_apply, Nat.shiftRight_eq_div_pow] <;>
    (repeat' rw [if_neg (by omega)])

theorem C10_write_buffer_bounds :
    (∀ s : BridgeState, writeBufferInv (resetWriteBuffer s)) ∧
      (∀ (s : BridgeState) (now : Nat) (side : Bool) (track w pos : Nat),
        writeBufferInv s → writeBufferInv (writeShortToBuffer s now side track w pos)) ∧
      (∀ (s : BridgeState) (now : Nat) (side : Bool) (track w pos : Nat),
        boolSideToDiskSurface side = s.floppySide →
        s.currentTrack = track →
        ¬ s.currentWriteTrack.floppyBufferSizeBits <
            ARD_MFM_BUFFER_MAX_TRACK_LENGTH * 8 - 16 →
        (writeShortToBuffer s now side track w pos).currentWriteTrack =
          s.currentWriteTrack) ∧
      (∀ (s : BridgeState) (now : Nat) (side : Bool) (track w pos j : Nat),
        ARD_MFM_BUFFER_MAX_TRACK_LENGTH ≤ j →
        (writeShortToBuffer s now side track w pos).currentWriteTrack.mfmBuffer j =
          s.currentWriteTrack.mfmBuffer j) := by
  refine ⟨?_, ?_, ?_, ?_⟩
  · intro s
    exact ⟨rfl, Nat.zero_le _⟩
  · intro s now side track w pos hinv
    have h1 := switchDiskSide_writeTrack s now side
    have h2 := gotoCylinder_writeTrack (switchDiskSide s now side) now track side
    refine appendWriteShort_inv _ side track w pos ?_
    show writeBufferInv
      { gotoCylinder (switchDiskSide s now side) now track side with
        delayStreaming := true, delayStreamingStart := now }
    have hb : (gotoCylinder (switchDiskSide s now side) now track
          side).currentWriteTrack.floppyBufferSizeBits =
            s.currentWriteTrack.floppyBufferSizeBits ∨
        (gotoCylinder (switchDiskSide s now side) now track
          side).currentWriteTrack.floppyBufferSizeBits = 0 := by
      rcases h2.1 with hb2 | hb2
      · rw [hb2]
        exact h1.1
      · right
        exact hb2
    unfold writeBufferInv at hinv ⊢
    rcases hb with hb | hb
    · exact ⟨by rw [show ({ gotoCylinder (switchDiskSide s now side) now track side with
          delayStreaming := true,
          delayStreamingStart := now } : BridgeState).currentWriteTrack.floppyBufferSizeBits =
            _ from rfl, hb]; exact hinv.1,
        by rw [show ({ gotoCylinder (switchDiskSide s now side) now track side with
          delayStreaming := true,
          delayStreamingStart := now } : BridgeState).currentWriteTrack.floppyBufferSizeBits =
            _ from rfl, hb]; exact hinv.2⟩
    · exact ⟨by rw [show ({ gotoCylinder (switchDiskSide s now side) now track side with
          delayStreaming := true,
          delayStreamingStart := now } : BridgeState).currentWriteTrack.floppyBufferSizeBits =
            _ from rfl, hb],
        by rw [show ({ gotoCylinder (switchDiskSide s now side) now track side with
          delayStreaming := true,
          delayStreamingStart := now } : BridgeState).currentWriteTrack.floppyBufferSizeBits =
            _ from rfl, hb]; exact Nat.zero_le _⟩
  · intro s now side track w pos hside htrack hfull
    show (appendWriteShort _ side track w pos).currentWriteTrack = s.currentWriteTrack
    rw [switchDiskSide_same s now side hside, gotoCylinder_same s now track side htrack]
    rw [appendWriteShort_discard
      { s with delayStreaming := true, delayStreamingStart := now } side track w pos hfull]
  · intro s now side track w pos j hj
    have h1 := switchDiskSide_writeTrack s now side
    have h2 := gotoCylinder_writeTrack (switchDiskSide s now side) now track side
    show (appendWriteShort _ side track w pos).currentWriteTrack.mfmBuffer j =
      s.currentWriteTrack.mfmBuffer j
    rw [appendWriteShort_buffer_high _ side track w pos j hj]
    show (gotoCylinder (switchDiskSide s now side) now track
        side).currentWriteTrack.mfmBuffer j = s.currentWriteTrack.mfmBuffer j
    rw [h2.2, h1.2]

/-- C10 witness: the invariant survives appending one word to the empty
buffer of the idle state. -/
theorem C10_witness : writeBufferInv (writeShortToBuffer idleState 0 false 3 43690 0) :=
  C10_write_buffer_bounds.2.1 idleState 0 false 3 43690 0 ⟨rfl, Nat.zero_le _⟩

/-- The per-window precompensation decision of
`ArduinoInterface::writeCurrentTrackPrecomp` (ArduinoInterface.cpp lines
1356-1376): the 7-bit rolling window `sequence` (three bits either side of
the current `1`) selects `PRECOMP_ERLY = 0x04`, `PRECOMP_LATE = 0x08` or
`PRECOMP_NONE = 0x00`; with `usePrecomp` false the switch is skipped. -/
def arduinoPrecomp (usePrecomp : Bool) (sequence : Nat) : Nat :=
  if usePrecomp then
    if sequence = 0x09 ∨ sequence = 0x0A ∨ sequence = 0x4A then 0x04
    else if sequence = 0x28 ∨ sequence = 0x29 ∨ sequence = 0x48 then 0x08
    else 0x00
  else 0x00

/-- The per-window timing adjustment of
`GreaseWeazleInterface::writeCurrentTrackPrecomp` (GreaseWeazleInterface.cpp
lines 829-851): the pair is (nanoseconds added to the current interval,
`extraTimeFromPrevious` handed to the next interval); `precompTime` is
140 ns.  With `usePrecomp` false the switch is skipped and no adjustment is
made. -/
def gwPrecompShift (usePrecomp : Bool) (sequence : Nat) : Int × Int :=
  if usePrecomp then
    if sequence = 0x09 ∨ sequence = 0x0A ∨ sequence = 0x4A then (-140, 140)
    else if sequence = 0x28 ∨ sequence = 0x29 ∨ sequence = 0x48 then (140, -140)
    else (0, 0)
  else (0, 0)

/-- The `usePrecomp` argument both bridges pass to `writeCurrentTrackPrecomp`
(`m_actualCurrentCylinder >= WRITE_PRECOMP_START`, ArduinoFloppyBridge.cpp
line 545 and GreaseWeazleBridge.cpp line 519). -/
def bridgeUsesPrecomp (actualCurrentCylinder : Nat) : Bool :=
  decide (WRITE_PRECOMP_START ≤ actualCurrentCylinder)

/-- C4: for every 7-bit window, both encoders apply the Early adjustment
exactly for windows 0x09, 0x0A, 0x4A, the Late adjustment exactly for
0x28, 0x29, 0x48, and none otherwise; and for a target cylinder below 40
the bridges disable precompensation, so no window gets any adjustment. -/
theorem C4_precomp_rule_table (sequence cyl : Nat) (hcyl : cyl < WRITE_PRECOMP_START) :
    (arduinoPrecomp true sequence = 0x04 ↔
        sequence = 0x09 ∨ sequence = 0x0A ∨ sequence = 0x4A) ∧
      (arduinoPrecomp true sequence = 0x08 ↔
        sequence = 0x28 ∨ sequence = 0x29 ∨ sequence = 0x48) ∧
      (¬ (sequence = 0x09 ∨ sequence = 0x0A ∨ sequence = 0x4A ∨
          sequence = 0x28 ∨ sequence = 0x29 ∨ sequence = 0x48) →
        arduinoPrecomp true sequence = 0x00) ∧
      (gwPrecompShift true sequence = (-140, 140) ↔
        sequence = 0x09 ∨ sequence = 0x0A ∨ sequence = 0x4A) ∧
      (gwPrecompShift true sequence = (140, -140) ↔
        sequence = 0x28 ∨ sequence = 0x29 ∨ sequence = 0x48) ∧
      (¬ (sequence = 0x09 ∨ sequence = 0x0A ∨ sequence = 0x4A ∨
          sequence = 0x28 ∨ sequence = 0x29 ∨ sequence = 0x48) →
        gwPrecompShift true sequence = (0, 0)) ∧
      bridgeUsesPrecomp cyl = false ∧
      arduinoPrecomp (bridgeUsesPrecomp cyl) sequence = 0x00 ∧
      gwPrecompShift (bridgeUsesPrecomp cyl) sequence = (0, 0) := by
  have hb : bridgeUsesPrecomp cyl = false := by
    simp only [bridgeUsesPrecomp, decide_eq_false_iff_not]
    omega
  refine ⟨?_, ?_, ?_, ?_, ?_, ?_, hb, by rw [hb]; rfl, by rw [hb]; rfl⟩ <;>
    simp only [arduinoPrecomp, gwPrecompShift, if_true] <;>
    split_ifs with h1 h2 <;>
    simp_all [Prod.ext_iff] <;>
    omega

/-- C4 witness: the rule table evaluated at the Early window 0x09 with
target cylinder 39. -/
theorem C4_witness :
    arduinoPrecomp true 0x09 = 0x04 ∧ gwPrecompShift true 0x09 = (-140, 140) ∧
      arduinoPrecomp (bridgeUsesPrecomp 39) 0x09 = 0x00 :=
  ⟨(C4_precomp_rule_table 0x09 39 (by decide)).1.mpr (Or.inl rfl),
    (C4_precomp_rule_table 0x09 39 (by decide)).2.2.2.1.mpr (Or.inl rfl),
    (C4_precomp_rule_table 0x09 39 (by decide)).2.2.2.2.2.2.2.1⟩

/-- `write28bit` (GreaseWeazleInterface.cpp lines 788-794): a 28-bit value
split across four wire bytes, each with bit 0 forced to 1. -/
def write28bit (value : Nat) : List Nat :=
  [1 ||| (value <<< 1) &&& 255,
   1 ||| (value >>> 6) &&& 255,
   1 ||| (value >>> 13) &&& 255,
   1 ||| (value >>> 20) &&& 255]

/-- `read_28bit` (GreaseWeazleInterface.cpp lines 571-579): four bytes
consumed from the queue, OR-combined back into the 28-bit value. -/
def read_28bit (queue : List Nat) : Nat :=
  match queue with
  | b0 :: b1 :: b2 :: b3 :: _ =>
      (((b0 >>> 1) ||| ((b1 &&& 0xfe) <<< 6)) ||| ((b2 &&& 0xfe) <<< 13)) |||
        ((b3 &&& 0xfe) <<< 20)
  | _ => 0

/-- `FluxOp::Space = 2` (GreaseWeazleInterface.cpp line 83). -/
def fluxOpSpace : Nat := 2

/-- The tick encoder inside `GreaseWeazleInterface::writeCurrentTrackPrecomp`
(lines 853-881): one interval's tick count becomes wire bytes.  `ticks` is a
C `int` that is non-negative on every reachable path, so `Nat` carries it;
the `ticks > 0` guard is kept. -/
def encodeFluxTicks (nfaThresh ticks : Nat) : List Nat :=
  if 0 < ticks then
    if ticks < 250 then [ticks]
    else if nfaThresh < ticks then
      [255, fluxOpSpace] ++ write28bit ticks ++ [255, fluxOpSpace]
    else
      let high := (ticks - 250) / 255
      if high < 5 then [250 + high, 1 + (ticks - 250) % 255]
      else [255, fluxOpSpace] ++ write28bit (ticks - 249) ++ [249]
  else []

/-- The run-length data path of `unpackStreamQueue` (GreaseWeazleInterface.cpp
lines 1075-1108): the first byte classifies the run; bytes 250-254 consume a
second byte; byte 255 opens the opcode path (not part of this claim); fewer
bytes than needed returns nothing (the source returns 0 and retries). -/
def unpackFluxValue (queue : List Nat) : Option (Int × List Nat) :=
  match queue with
  | [] => none
  | i :: rest =>
    if i = 255 then none
    else if i < 250 then some ((i : Int), rest)
    else
      match rest with
      | next :: rest2 =>
          some (250 + ((i : Int) - 250) * 255 + ((next : Int) - 1), rest2)
      | [] => none

theorem lor_one_eq (m : Nat) : 1 ||| m = 2 * (m / 2) + 1 := by
  have h2 : (1 ||| m) % 2 = 1 := by
    rw [Nat.or_mod_two_eq_one]
    left
    rfl
  have h3 : (1 ||| m) / 2 = m / 2 := by
    rw [Nat.or_div_two]
    simp
  omega

theorem land_255_eq (x : Nat) : x &&& 255 = x % 256 := by
  have h := Nat.and_pow_two_sub_one_eq_mod x 8
  norm_num at h
  exact h

theorem land_254_eq (x : Nat) : x &&& 254 = 2 * (x / 2 % 128) := by
  have h2 : (x &&& 254) % 2 = 0 := by
    have h := Nat.and_mod_two_eq_one (a := x) (b := 254)
    have h254 : (254 : Nat) % 2 = 0 := rfl
    omega
  have h3 : (x &&& 254) / 2 = x / 2 % 128 := by
    have hd : (x &&& 254) / 2 = x / 2 &&& 254 / 2 := Nat.and_div_two
    rw [hd]
    have h := Nat.and_pow_two_sub_one_eq_mod (x / 2) 7
    norm_num at h
    exact h
  omega

theorem lor_low_add (a b k : Nat) (h : a < 2 ^ k) : a ||| 2 ^ k * b = a + 2 ^ k * b := by
  rw [Nat.lor_comm, ← Nat.mul_add_lt_is_or h, Nat.add_comm]

theorem read_write_28bit (v : Nat) (hv : v < 2 ^ 28) :
    read_28bit (write28bit v) = v := by
  have hb0 : 1 ||| (v <<< 1) &&& 255 = 2 * (v % 128) + 1 := by
    rw [Nat.shiftLeft_eq, land_255_eq, lor_one_eq]
    norm_num
    omega
  have hb1 : 1 ||| (v >>> 6) &&& 255 = 2 * (v / 128 % 128) + 1 := by
    rw [Nat.shiftRight_eq_div_pow, land_255_eq, lor_one_eq]
    norm_num
    omega
  have hb2 : 1 ||| (v >>> 13) &&& 255 = 2 * (v / 16384 % 128) + 1 := by
    rw [Nat.shiftRight_eq_div_pow, land_255_eq, lor_one_eq]
    norm_num
    omega
  have hb3 : 1 ||| (v >>> 20) &&& 255 = 2 * (v / 2097152 % 128) + 1 := by
    rw [Nat.shiftRight_eq_div_pow, land_255_eq, lor_one_eq]
    norm_num
    omega
  simp only [write28bit, read_28bit]
  rw [hb0, hb1, hb2, hb3]
  simp only [land_254_eq, Nat.shiftRight_eq_div_pow, Nat.shiftLeft_eq]
  have e0 : (2 * (v % 128) + 1) / 2 ^ 1 = v % 128 := by
    norm_num
    omega
  have e1 : (2 * (v / 128 % 128) + 1) / 2 % 128 = v / 128 % 128 := by omega
  have e2 : (2 * (v / 16384 % 128) + 1) / 2 % 128 = v / 16384 % 128 := by omega
  have e3 : (2 * (v / 2097152 % 128) + 1) / 2 % 128 = v / 2097152 % 128 := by omega
  rw [e0, e1, e2, e3]
  have c1 : 2 * (v / 128 % 128) * 2 ^ 6 = 2 ^ 7 * (v / 128 % 128) := by ring
  have c2 : 2 * (v / 16384 % 128) * 2 ^ 13 = 2 ^ 14 * (v / 16384 % 128) := by ring
  have c3 : 2 * (v / 2097152 % 128) * 2 ^ 20 = 2 ^ 21 * (v / 2097152 % 128) := by ring
  rw [c1, c2, c3]
  rw [lor_low_add _ _ 7 (by omega)]
  rw [lor_low_add _ _ 14 (by norm_num; omega)]
  rw [lor_low_add _ _ 21 (by norm_num; omega)]
  norm_num
  omega

/-- C8: a two-byte run-length pair with first byte in [250, 254] decodes to
`250 + (v - 250) * 255 + (next - 1)`; encoding any tick count in [250, 1524]
(below the no-flux-area threshold) produces such a pair, and decoding it
reproduces the tick count; and `read_28bit` inverts `write28bit` on every
28-bit value. -/
theorem C8_flux_run_length_roundtrip :
    (∀ (i next : Nat) (rest : List Nat), 250 ≤ i → i ≤ 254 →
        unpackFluxValue (i :: next :: rest) =
          some (250 + ((i : Int) - 250) * 255 + ((next : Int) - 1), rest)) ∧
      (∀ nfaThresh t : Nat, 250 ≤ t → t ≤ 1524 → t ≤ nfaThresh →
        encodeFluxTicks nfaThresh t = [250 + (t - 250) / 255, 1 + (t - 250) % 255] ∧
          250 ≤ 250 + (t - 250) / 255 ∧ 250 + (t - 250) / 255 ≤ 254 ∧
          unpackFluxValue (encodeFluxTicks nfaThresh t) = some ((t : Int), [])) ∧
      (∀ v : Nat, v < 2 ^ 28 → read_28bit (write28bit v) = v) := by
  have hpair : ∀ (i next : Nat) (rest : List Nat), 250 ≤ i → i ≤ 254 →
      unpackFluxValue (i :: next :: rest) =
        some (250 + ((i : Int) - 250) * 255 + ((next : Int) - 1), rest) := by
    intro i next rest h1 h2
    simp only [unpackFluxValue]
    rw [if_neg (by omega), if_neg (by omega)]
  refine ⟨hpair, ?_, fun v hv => read_write_28bit v hv⟩
  intro nfaThresh t h1 h2 h3
  have henc : encodeFluxTicks nfaThresh t =
      [250 + (t - 250) / 255, 1 + (t - 250) % 255] := by
    simp only [encodeFluxTicks]
    rw [if_pos (by omega), if_neg (by omega), if_neg (by omega), if_pos (by omega)]
  refine ⟨henc, by omega, by omega, ?_⟩
  rw [henc, hpair _ _ _ (by omega) (by omega)]
  congr 1
  refine Prod.ext ?_ rfl
  push_cast
  omega

/-- C8 witness: tick count 1000 encodes to a two-byte pair and decodes back,
and the 28-bit codec round-trips 123456789. -/
theorem C8_witness :
    unpackFluxValue (encodeFluxTicks 2000 1000) = some ((1000 : Int), []) ∧
      read_28bit (write28bit 123456789) = 123456789 :=
  ⟨(C8_flux_run_length_roundtrip.2.1 2000 1000 (by decide) (by decide) (by decide)).2.2.2,
    C8_flux_run_length_roundtrip.2.2 123456789 (by decide)⟩

/-- The per-candidate score of `findSlidingWindow` (ArduinoInterface.cpp
lines 852-856; GreaseWeazleInterface.cpp lines 968-972 is identical): the
number of fingerprint positions whose code matches the search area at
`startIndex + pos`, with the source's defensive bounds check (its
`startIndex + pos >= 0` half is vacuous over `Nat`). -/
def windowScore (searchArea searchSequence : List Nat) (startIndex : Nat) : Nat :=
  (List.range searchSequence.length).countP fun pos =>
    decide (startIndex + pos < searchArea.length) &&
      (searchArea.getD (startIndex + pos) 0 == searchSequence.getD pos 0)

/-- One best-so-far update of the scan (lines 858-861): a strictly better
score replaces the running `(bestIndex, bestScore)`. -/
def fswStep (searchArea searchSequence : List Nat) (best : Nat × Nat) (i : Nat) :
    Nat × Nat :=
  let s := windowScore searchArea searchSequence i
  if s > best.2 then (i, s) else best

/-- The fan-out scan loop of `findSlidingWindow` (lines 849-869): `a` runs
from 0 to `midPoint`, trying `midPoint - a` then `midPoint + a`; a strictly
better score updates the best, and a perfect score (`searchSequence.size()`)
aborts the whole scan (`a = midPoint + 1; break`).  `fuel` counts the
remaining values of `a`. -/
def fswScan (searchArea searchSequence : List Nat) (midPoint : Nat) :
    Nat → Nat → Nat → Nat → Nat
  | 0, _, bestIndex, _ => bestIndex
  | fuel + 1, a, bestIndex, bestScore =>
    let s1 := windowScore searchArea searchSequence (midPoint - a)
    let best1 := if s1 > bestScore then (midPoint - a, s1) else (bestIndex, bestScore)
    if s1 > bestScore ∧ s1 = searchSequence.length then best1.1
    else
      let s2 := windowScore searchArea searchSequence (midPoint + a)
      let best2 := if s2 > best1.2 then (midPoint + a, s2) else best1
      if s2 > best1.2 ∧ s2 = searchSequence.length then best2.1
      else fswScan searchArea searchSequence midPoint fuel (a + 1) best2.1 best2.2

/-- `findSlidingWindow` (ArduinoInterface.cpp lines 827-871;
GreaseWeazleInterface.cpp lines 941-987 is identical): locate where the
fingerprint matches `current ++ future` best, fanning out from the
midpoint; the queues are modelled by the lists of their run-length codes in
order.  `bestIndex` starts at `currentBitSequences.size() - 1` with score
0. -/
def findSlidingWindow (searchSequence futureBitSequences currentBitSequences :
    List Nat) : Nat :=
  if futureBitSequences.length < OVERLAP_WINDOW_SIZE then 0
  else if currentBitSequences.length < OVERLAP_WINDOW_SIZE then 0
  else if searchSequence.length < OVERLAP_WINDOW_SIZE then 0
  else
    let searchArea := currentBitSequences ++ futureBitSequences
    let midPoint := (searchArea.length - searchSequence.length) / 2
    fswScan searchArea searchSequence midPoint (midPoint + 1) 0
      (currentBitSequences.length - 1) 0

/-- The candidate order of the scan: for `a = 0..midPoint`, `midPoint - a`
then `midPoint + a` (the source evaluates both directions even at
`a = 0`). -/
def fanOutCandidates (midPoint : Nat) : List Nat :=
  (List.range (midPoint + 1)).flatMap fun a => [midPoint - a, midPoint + a]

/-- The amended claim's description of the scan result: fold over the
fan-out candidates keeping the first strictly-best score, starting from the
default `(len(current) - 1, 0)` and with no early exit. -/
def claimedBestCandidate (searchArea searchSequence : List Nat)
    (midPoint defaultIndex : Nat) : Nat :=
  ((fanOutCandidates midPoint).foldl (fswStep searchArea searchSequence)
    (defaultIndex, 0)).1

/-- Claim C5 as amended: same guards and scan as the source, with the
default start index `len(current) - 1` kept when no candidate scores
positively; written from the claim's words, to be compared with
`findSlidingWindow`. -/
def claimedAmendedSlidingWindow (searchSequence futureBitSequences
    currentBitSequences : List Nat) : Nat :=
  if futureBitSequences.length < OVERLAP_WINDOW_SIZE then 0
  else if currentBitSequences.length < OVERLAP_WINDOW_SIZE then 0
  else if searchSequence.length < OVERLAP_WINDOW_SIZE then 0
  else
    let searchArea := currentBitSequences ++ futureBitSequences
    let midPoint := (searchArea.length - searchSequence.length) / 2
    claimedBestCandidate searchArea searchSequence midPoint
      (currentBitSequences.length - 1)

/-- Claim C5 exactly as stated: "returns the highest-scoring start index,
preferring the candidate closest to the midpoint on ties" — the fold starts
from the first candidate (the midpoint itself), so when every candidate
scores zero the midpoint is returned.  Written from the claim's words. -/
def claimedSlidingWindow (searchSequence futureBitSequences
    currentBitSequences : List Nat) : Nat :=
  if futureBitSequences.length < OVERLAP_WINDOW_SIZE then 0
  else if currentBitSequences.length < OVERLAP_WINDOW_SIZE then 0
  else if searchSequence.length < OVERLAP_WINDOW_SIZE then 0
  else
    let searchArea := currentBitSequences ++ futureBitSequences
    let midPoint := (searchArea.length - searchSequence.length) / 2
    ((fanOutCandidates midPoint).foldl (fswStep searchArea searchSequence)
      (midPoint, windowScore searchArea searchSequence midPoint)).1

theorem windowScore_le (area fp : List Nat) (i : Nat) :
    windowScore area fp i ≤ fp.length := by
  have h := List.countP_le_length
    (p := fun pos =>
      decide (i + pos < area.length) && (area.getD (i + pos) 0 == fp.getD pos 0))
    (l := List.range fp.length)
  simpa [windowScore] using h

theorem foldl_fswStep_max (area fp : List Nat) (cands : List Nat) (b : Nat × Nat)
    (hb : b.2 = fp.length) :
    cands.foldl (fswStep area fp) b = b := by
  induction cands generalizing b with
  | nil => rfl
  | cons c cs ih =>
      have hs : ¬ windowScore area fp c > b.2 := by
        have := windowScore_le area fp c
        omega
      simp only [List.foldl_cons, fswStep, if_neg hs]
      exact ih b hb

theorem fswScan_eq_foldl (area fp : List Nat) (mid : Nat) :
    ∀ (fuel a bi bs : Nat),
      fswScan area fp mid fuel a bi bs =
        (((List.range' a fuel).flatMap fun x => [mid - x, mid + x]).foldl
          (fswStep area fp) (bi, bs)).1 := by
  intro fuel
  induction fuel with
  | zero => intro a bi bs; rfl
  | succ fuel ih =>
      intro a bi bs
      rw [List.range'_succ]
      simp only [List.flatMap_cons, List.foldl_append, List.foldl_cons, List.foldl_nil]
      show fswScan area fp mid (fuel + 1) a bi bs = _
      rw [fswScan]
      by_cases h1 : windowScore area fp (mid - a) > bs ∧
          windowScore area fp (mid - a) = fp.length
      · rw [if_pos h1]
        simp only [if_pos h1.1]
        have hstep1 : fswStep area fp (bi, bs) (mid - a) =
            (mid - a, windowScore area fp (mid - a)) := by
          simp [fswStep, h1.1]
        rw [hstep1]
        have hstep2 : fswStep area fp (mid - a, windowScore area fp (mid - a)) (mid + a) =
            (mid - a, windowScore area fp (mid - a)) := by
          have := windowScore_le area fp (mid + a)
          simp only [fswStep]
          rw [if_neg (by rw [h1.2] at *; omega)]
        rw [hstep2]
        rw [foldl_fswStep_max area fp _ _ (by simpa using h1.2)]
      · rw [if_neg h1]
        by_cases hs1 : windowScore area fp (mid - a) > bs
        · have hne : windowScore area fp (mid - a) ≠ fp.length := fun hc => h1 ⟨hs1, hc⟩
          simp only [if_pos hs1]
          have hstep1 : fswStep area fp (bi, bs) (mid - a) =
              (mid - a, windowScore area fp (mid - a)) := by
            simp [fswStep, hs1]
          rw [hstep1]
          by_cases h2 : windowScore area fp (mid + a) > windowScore area fp (mid - a) ∧
              windowScore area fp (mid + a) = fp.length
          · rw [if_pos (by simpa using h2)]
            simp only [if_pos h2.1]
            have hstep2 : fswStep area fp (mid - a, windowScore area fp (mid - a))
                (mid + a) = (mid + a, windowScore area fp (mid + a)) := by
              simp [fswStep, h2.1]
            rw [hstep2]
            rw [foldl_fswStep_max area fp _ _ (by simpa using h2.2)]
          · rw [if_neg (by simpa using h2)]
            rw [ih]
            congr 1
        · simp only [if_neg hs1]
          by_cases h2 : windowScore area fp (mid + a) > bs ∧
              windowScore area fp (mid + a) = fp.length
          · rw [if_pos (by simpa using h2)]
            simp only [if_pos h2.1]
            have hstep1 : fswStep area fp (bi, bs) (mid - a) = (bi, bs) := by
              simp [fswStep, hs1]
            have hstep2 : fswStep area fp (bi, bs) (mid + a) =
                (mid + a, windowScore area fp (mid + a)) := by
              simp [fswStep, h2.1]
            rw [hstep1, hstep2]
            rw [foldl_fswStep_max area fp _ _ (by simpa using h2.2)]
          · rw [if_neg (by simpa using h2)]
            rw [ih]
            congr 1
            have hstep1 : fswStep area fp (bi, bs) (mid - a) = (bi, bs) := by
              simp [fswStep, hs1]
            rw [hstep1]
            simp only [fswStep]

set_option maxRecDepth 10000 in
/-- C5 counterexample: with a 32-code fingerprint of all `1`s and 32-element
current and future queues of all `0`s, every candidate scores zero;
`findSlidingWindow` returns its untouched default `len(current) - 1 = 31`,
while the claim's "highest-scoring start index, preferring the candidate
closest to the midpoint on ties" is the midpoint `16`. -/
theorem C5_counterexample :
    findSlidingWindow (List.replicate 32 1) (List.replicate 32 0)
        (List.replicate 32 0) = 31 ∧
      claimedSlidingWindow (List.replicate 32 1) (List.replicate 32 0)
        (List.replicate 32 0) = 16 ∧
      (31 : Nat) ≠ 16 := by
  refine ⟨by decide, by decide, by decide⟩

/-- C5 (amended): `findSlidingWindow` returns 0 when any input is shorter
than W = 32; otherwise it scans the candidates fanning out from the
midpoint, scoring each against the fingerprint, keeps the first
strictly-best candidate (closest to the midpoint on ties) and returns it —
starting from the default index `len(current) - 1` with score 0, so that
index is returned when no candidate matches a single position; the early
exit on a perfect score never changes the result. -/
theorem C5_sliding_window_refines (searchSequence futureBitSequences
    currentBitSequences : List Nat) :
    findSlidingWindow searchSequence futureBitSequences currentBitSequences =
        claimedAmendedSlidingWindow searchSequence futureBitSequences
          currentBitSequences ∧
      (futureBitSequences.length < OVERLAP_WINDOW_SIZE ∨
          currentBitSequences.length < OVERLAP_WINDOW_SIZE ∨
          searchSequence.length < OVERLAP_WINDOW_SIZE →
        findSlidingWindow searchSequence futureBitSequences currentBitSequences = 0) := by
  constructor
  · unfold findSlidingWindow claimedAmendedSlidingWindow claimedBestCandidate
      fanOutCandidates
    split_ifs <;> try rfl
    rw [fswScan_eq_foldl]
    simp only [List.range_eq_range']
  · intro h
    unfold findSlidingWindow
    split_ifs with g1 g2 g3 <;> first | rfl | (exfalso; omega)

/-- C5 witness: the short-input guard at an empty future queue. -/
theorem C5_witness :
    findSlidingWindow (List.replicate 32 1) [] [] = 0 :=
  (C5_sliding_window_refines (List.replicate 32 1) [] []).2 (Or.inl (by decide))

end FloppyBridge
